import Mathlib

/-!
Verification of the prompt-budget management core of `agentUniverse`
(`agentuniverse/base/util/prompt_util.py`): the chunker
`split_text_on_tokens`, the batch splitter `split_texts` with its one-shot
retry, the truncation wrapper `truncate_content`, the two summarization
strategies, and the budget controller `process_llm_token`.

Modelling conventions:
* Text is `List Char`; Python slices are modelled by `pySlice`, including
  the clamping of out-of-range and negative indices.
* Python's float computation `int(chunk_size * (len(text) / text_token))`
  is modelled by exact rational arithmetic truncated toward zero, i.e.
  `Int.div (chunk_size * len) text_token`; `Int.div` uses the same
  truncation convention as Python's `int(...)` applied to a nonnegative or
  negative quotient.
* Python exceptions are modelled by `Except PyErr`; possible divergence of
  the chunker's `while` loop is modelled by a fuel parameter whose
  exhaustion yields `none` (the fuel supplied by `split_text_on_tokens` is
  proved sufficient whenever the loop terminates, so `none` characterizes
  true nontermination).
* The token estimator `LLM.get_num_tokens` may be stateful (the state type
  `σ` is threaded through every call), which lets a single definition cover
  both deterministic estimators and estimators that fail transiently.
-/

/-- Python exception values that can arise in this core.  `str(e)` is
modelled by `pyErrStr`. -/
inductive PyErr where
  | zeroDivision
  | indexError
  | typeError
  | valueError (msg : String)
  | notFound (msg : String)
  | other (msg : String)
deriving DecidableEq, Repr

/-- Model of Python's `str(e)` for the exceptions above (`str` of a
`ZeroDivisionError` is `"division by zero"`, of an `IndexError` is
`"list index out of range"`). -/
def pyErrStr : PyErr → String
  | .zeroDivision => "division by zero"
  | .indexError => "list index out of range"
  | .typeError => "TypeError"
  | .valueError m => m
  | .notFound m => m
  | .other m => m

/-- Effective index of a Python slice bound `i` on a sequence of length
`len`: negative indices count from the end (clamped below at 0), and
indices past the end are clamped to `len`. -/
def pyIndex (len : Nat) (i : Int) : Nat :=
  if i < 0 then ((len : Int) + i).toNat else min i.toNat len

/-- Python slice `t[a:b]`. -/
def pySlice (t : List Char) (a b : Int) : List Char :=
  (t.take (pyIndex t.length b)).drop (pyIndex t.length a)

/-- Python slice `t[a:]`. -/
def pySliceFrom (t : List Char) (a : Int) : List Char :=
  t.drop (pyIndex t.length a)

/-- One chunk of `split_text_on_tokens` emitted at cursor `pos`:
`text[pos:]` when `pos + chunk_char_size >= len(text)`, otherwise
`text[pos:pos + chunk_char_size]` (lines 57-60 of `prompt_util.py`). -/
def chunkAt (t : List Char) (pos ccs : Int) : List Char :=
  if (t.length : Int) ≤ pos + ccs then pySliceFrom t pos
  else pySlice t pos (pos + ccs)

/-- The `while current_position + chunk_char_overlap < len(text)` loop of
`split_text_on_tokens`, with an explicit fuel parameter: `none` models
nontermination of the Python loop. -/
def splitLoop (t : List Char) (ccs cco : Int) : Nat → Int → Option (List (List Char))
  | 0, _ => none
  | fuel + 1, pos =>
    if pos + cco < (t.length : Int) then
      Option.map (fun r => chunkAt t pos ccs :: r)
        (splitLoop t ccs cco fuel (pos + (ccs - cco)))
    else
      some []

/-- `split_text_on_tokens(text, text_token, chunk_size, chunk_overlap)`
(lines 46-65).  `char_per_token = len(text) / text_token` raises
`ZeroDivisionError` when `text_token == 0`; otherwise
`chunk_char_size = int(chunk_size * char_per_token)` and
`chunk_char_overlap = int(chunk_overlap * char_per_token)` are computed
(exact rational arithmetic truncated toward zero) and the cursor loop
runs.  The fuel `text.length + cco.natAbs + 1` is sufficient whenever the
loop terminates, so a `none` result models an infinite loop. -/
def split_text_on_tokens (text : List Char) (text_token : Nat)
    (chunk_size chunk_overlap : Int) : Option (Except PyErr (List (List Char))) :=
  if text_token = 0 then some (.error .zeroDivision)
  else
    let ccs : Int := Int.tdiv (chunk_size * text.length) text_token
    let cco : Int := Int.tdiv (chunk_overlap * text.length) text_token
    match splitLoop text ccs cco (text.length + cco.natAbs + 1) 0 with
    | none => none
    | some r => some (.ok r)

/-- Model of an LLM handle as consumed by this core (spec section 6:
token estimation plus the two context-limit attributes).  The token
estimator may consult and update a state of type `σ`, and may raise. -/
structure LLM (σ : Type) where
  get_num_tokens : σ → List Char → Except PyErr Nat × σ
  max_context_length : Int
  max_tokens : Int

/-- The body of the `try` block of `split_texts` (lines 72-79): estimate
each text's tokens, chunk it, and accumulate all chunks in order.  The
first raised exception aborts the batch; `none` propagates divergence of
the chunker. -/
def splitAttempt {σ : Type} (llm : LLM σ) (chunk_size chunk_overlap : Int) :
    List (List Char) → σ → Option (Except PyErr (List (List Char)) × σ)
  | [], s => some (.ok [], s)
  | t :: rest, s =>
    match llm.get_num_tokens s t with
    | (.error e, s1) => some (.error e, s1)
    | (.ok tok, s1) =>
      match split_text_on_tokens t tok chunk_size chunk_overlap with
      | none => none
      | some (.error e) => some (.error e, s1)
      | some (.ok chunks) =>
        match splitAttempt llm chunk_size chunk_overlap rest s1 with
        | none => none
        | some (.error e, s2) => some (.error e, s2)
        | some (.ok more, s2) => some (.ok (chunks ++ more), s2)

/-- `split_texts(texts, agent_llm, chunk_size, chunk_overlap, retry)`
(lines 68-83).  On any exception: if `retry` is true the whole batch is
re-run once with `retry=False` and the default chunk parameters
`(800, 100)`; a failure with `retry=False` raises
`ValueError("split text failed, exception=" + str(e))` where `e` is the
exception of that (final) attempt. -/
def split_texts {σ : Type} (llm : LLM σ) (texts : List (List Char))
    (chunk_size chunk_overlap : Int) (retry : Bool) (s : σ) :
    Option (Except PyErr (List (List Char)) × σ) :=
  match splitAttempt llm chunk_size chunk_overlap texts s with
  | none => none
  | some (.ok r, s1) => some (.ok r, s1)
  | some (.error e, s1) =>
    if retry then
      -- the recursive call `split_texts(texts, agent_llm, retry=False)`
      match splitAttempt llm 800 100 texts s1 with
      | none => none
      | some (.ok r, s2) => some (.ok r, s2)
      | some (.error e2, s2) =>
        some (.error (.valueError ("split text failed, exception=" ++ pyErrStr e2)), s2)
    else
      some (.error (.valueError ("split text failed, exception=" ++ pyErrStr e)), s1)

/-- `truncate_content(content, token_length, agent_llm)` (lines 86-90):
`str(split_texts(texts=[content], chunk_size=token_length, agent_llm)[0])`.
Indexing an empty chunk list raises `IndexError`, outside the `try` of
`split_texts`. -/
def truncate_content {σ : Type} (content : List Char) (token_length : Int)
    (agent_llm : LLM σ) (s : σ) : Option (Except PyErr (List Char) × σ) :=
  match split_texts agent_llm [content] token_length 100 true s with
  | none => none
  | some (.error e, s1) => some (.error e, s1)
  | some (.ok [], s1) => some (.error .indexError, s1)
  | some (.ok (c :: _), s1) => some (.ok c, s1)

/-- Modelled from the spec: the repository's `PromptProcessEnum`
(`agentuniverse/prompt/enum.py` is not part of the provided sources).
Spec sections 3 and 4.5: the policy is one of TRUNCATE | STUFF |
MAP_REDUCE with configuration values `'truncate'`, `'stuff'`,
`'map_reduce'`. -/
inductive PromptProcessEnum where
  | TRUNCATE
  | STUFF
  | MAP_REDUCE
deriving DecidableEq, Repr

/-- Modelled from the spec: the `.value` string of each policy member. -/
def PromptProcessEnum.value : PromptProcessEnum → String
  | .TRUNCATE => "truncate"
  | .STUFF => "stuff"
  | .MAP_REDUCE => "map_reduce"

/-- Modelled from the spec: `PromptProcessEnum.from_value`, mapping a
configured string to the policy member; a malformed policy value is a
configuration error surfaced to the caller (spec section 7). -/
def PromptProcessEnum.from_value (v : String) : Except PyErr PromptProcessEnum :=
  if v = "truncate" then .ok .TRUNCATE
  else if v = "stuff" then .ok .STUFF
  else if v = "map_reduce" then .ok .MAP_REDUCE
  else .error (.valueError v)

/-- A resolved prompt-template object held by the Prompt Registry. -/
structure PromptObj where
  content : String
deriving DecidableEq, Repr

/-- The external collaborators consumed by the summarizers and the
controller (spec section 6): the Model Registry, the Prompt Registry, and
the two langchain summarization chains (external capabilities; the chains
themselves perform the model calls and are opaque to this core). -/
structure Env (σ : Type) where
  get_llm : String → Option (LLM σ)
  get_prompt : String → Option PromptObj
  run_stuff_chain : LLM σ → PromptObj → List (List Char) → σ → Except PyErr (List Char) × σ
  run_map_reduce_chain : LLM σ → PromptObj → PromptObj → List (List Char) → σ → Except PyErr (List Char) × σ

/-- `summarize_by_stuff(texts, llm, summary_prompt_version)` (lines
22-29): resolve the summary prompt through the Prompt Registry (modelled
from the spec: a missing key is a not-found error) and run the stuff
chain once over the whole text collection. -/
def summarize_by_stuff {σ : Type} (env : Env σ) (texts : List (List Char))
    (llm : LLM σ) (summary_prompt_version : String) (s : σ) :
    Option (Except PyErr (List Char) × σ) :=
  match env.get_prompt summary_prompt_version with
  | none => some (.error (.notFound summary_prompt_version), s)
  | some sp => some (env.run_stuff_chain llm sp texts s)

/-- `summarize_by_map_reduce(texts, llm, agent_llm, summary_prompt_version,
combine_prompt_version)` (lines 32-43): first split the texts with
`split_texts` using `agent_llm` (default chunk parameters, retry on),
then resolve both prompts and run the map-reduce chain with `llm`. -/
def summarize_by_map_reduce {σ : Type} (env : Env σ) (texts : List (List Char))
    (llm agent_llm : LLM σ) (summary_prompt_version combine_prompt_version : String)
    (s : σ) : Option (Except PyErr (List Char) × σ) :=
  match split_texts agent_llm texts 800 100 true s with
  | none => none
  | some (.error e, s1) => some (.error e, s1)
  | some (.ok chunks, s1) =>
    match env.get_prompt summary_prompt_version with
    | none => some (.error (.notFound summary_prompt_version), s1)
    | some sp =>
      match env.get_prompt combine_prompt_version with
      | none => some (.error (.notFound combine_prompt_version), s1)
      | some cp => some (env.run_map_reduce_chain llm sp cp chunks s1)

/-- The optional `prompt_processor` sub-configuration of
`profile['llm_model']` (lines 122-129); every recognized option is
optional. -/
structure PromptProcessorCfg where
  type : Option String
  llm : Option String
  summary_prompt_version : Option String
  combine_prompt_version : Option String
deriving DecidableEq, Repr

/-- The `llm_model` entry of the profile: the target model name and the
optional `prompt_processor` sub-configuration. -/
structure LlmModelCfg where
  name : String
  prompt_processor : Option PromptProcessorCfg
deriving DecidableEq, Repr

/-- The parts of `profile` read by `process_llm_token`. -/
structure Profile where
  llm_model : LlmModelCfg
deriving DecidableEq, Repr

/-- Python's `d.get(key) or default` idiom on an optional string value:
both a missing key and a falsy (empty) string select the default. -/
def pyOrStr (v : Option String) (dflt : String) : String :=
  match v with
  | none => dflt
  | some st => if st = "" then dflt else st

/-- `llm_model.get('prompt_processor') or dict()` (line 123). -/
def resolvedPP (profile : Profile) : PromptProcessorCfg :=
  profile.llm_model.prompt_processor.getD ⟨none, none, none, none⟩

/-- `prompt_processor.get('type') or PromptProcessEnum.TRUNCATE.value`
(line 124). -/
def resolved_type (profile : Profile) : String :=
  pyOrStr (resolvedPP profile).type PromptProcessEnum.TRUNCATE.value

/-- `prompt_processor.get('llm') or llm_name` (line 125). -/
def resolved_llm (profile : Profile) : String :=
  pyOrStr (resolvedPP profile).llm profile.llm_model.name

/-- `prompt_processor.get('summary_prompt_version') or
'prompt_processor.summary_cn'` (line 128). -/
def resolved_summary_version (profile : Profile) : String :=
  pyOrStr (resolvedPP profile).summary_prompt_version "prompt_processor.summary_cn"

/-- `prompt_processor.get('combine_prompt_version') or
'prompt_processor.combine_cn'` (line 129). -/
def resolved_combine_version (profile : Profile) : String :=
  pyOrStr (resolvedPP profile).combine_prompt_version "prompt_processor.combine_cn"

/-- `remaining_tokens = agent_llm.max_context_length() - agent_llm.max_tokens`
(line 141). -/
def remaining_tokens {σ : Type} (llm : LLM σ) : Int :=
  llm.max_context_length - llm.max_tokens

/-- The planner input dictionary, modelled as a partial map from variable
names to string values. -/
abbrev PlannerInput := String → Option (List Char)

/-- The prompt template collaborator (spec section 6): its declared
variable names, and `format(**kwargs)` producing the literal prompt. -/
structure PromptTemplate where
  input_variables : List String
  format : PlannerInput → List Char

/-- `{key: planner_input[key] for key in prompt_template.input_variables
if key in planner_input}` (line 131). -/
def restrict (vars : List String) (m : PlannerInput) : PlannerInput :=
  fun k => if k ∈ vars then m k else none

/-- `planner_input['background'] = v`, the only mutation the controller
performs; modelled functionally. -/
def setKey (m : PlannerInput) (k : String) (v : List Char) : PlannerInput :=
  fun k' => if k' = k then some v else m k'

/-- Lift the result of one compression strategy into the rewritten
planner input: an `ok` value is written to `planner_input['background']`,
an exception propagates, divergence propagates. -/
def applyBg (m : PlannerInput) :
    Option (Except PyErr (List Char) × σ) → Option (Except PyErr PlannerInput × σ)
  | none => none
  | some (.error e, s1) => some (.error e, s1)
  | some (.ok bg, s1) => some (.ok (setKey m "background" bg), s1)

/-- `process_llm_token(prompt_template, profile, planner_input)` (lines
112-156), returning the rewritten planner input (mutation modelled as a
return value).  Registry lookups are modelled from the spec (not-found
errors for unknown names); a `None` background reaching a compression
branch is modelled as an immediate type failure. -/
def process_llm_token {σ : Type} (env : Env σ) (prompt_template : PromptTemplate)
    (profile : Profile) (planner_input : PlannerInput) (s : σ) :
    Option (Except PyErr PlannerInput × σ) :=
  match env.get_llm profile.llm_model.name with
  | none => some (.error (.notFound profile.llm_model.name), s)
  | some agent_llm =>
    match env.get_llm (resolved_llm profile) with
    | none => some (.error (.notFound (resolved_llm profile)), s)
    | some prompt_llm =>
      match agent_llm.get_num_tokens s
          (prompt_template.format (restrict prompt_template.input_variables planner_input)) with
      | (.error e, s1) => some (.error e, s1)
      | (.ok prompt_tokens, s1) =>
        if (prompt_tokens : Int) ≤ remaining_tokens agent_llm then
          some (.ok planner_input, s1)
        else
          match PromptProcessEnum.from_value (resolved_type profile) with
          | .error e => some (.error e, s1)
          | .ok pe =>
            match planner_input "background" with
            | none => some (.error .typeError, s1)
            | some content =>
              match pe with
              | .TRUNCATE =>
                applyBg planner_input
                  (truncate_content content (remaining_tokens agent_llm) agent_llm s1)
              | .STUFF =>
                applyBg planner_input
                  (summarize_by_stuff env [content] prompt_llm
                    (resolved_summary_version profile) s1)
              | .MAP_REDUCE =>
                applyBg planner_input
                  (summarize_by_map_reduce env [content] prompt_llm agent_llm
                    (resolved_summary_version profile) (resolved_combine_version profile) s1)

/-! ### Concrete fixtures used by witnesses and counterexamples -/

/-- A stateful estimator (state = number of calls made so far) that raises
`e` on its very first call and afterwards returns `f text`: the
"fails on the first attempt, succeeds on the second" collaborator of the
splitter-retry scenario. -/
def countLLM (f : List Char → Nat) (e : PyErr) : LLM Nat :=
  ⟨fun s t => (if s = 0 then .error e else .ok (f t), s + 1), 0, 0⟩

/-- A pure, always-succeeding estimator returning `f text`: the run "as if
the first attempt had succeeded". -/
def pureLLM (f : List Char → Nat) : LLM Unit :=
  ⟨fun s t => (.ok (f t), s), 0, 0⟩

/-- A stateful estimator that raises a *different* error on each call:
`"E1"` on the first, `"E2"` on every later one. -/
def twoErrLLM : LLM Nat :=
  ⟨fun s _ => (.error (.other (if s = 0 then "E1" else "E2")), s + 1), 0, 0⟩

/-- Target model of the over-budget truncation scenarios: a one-character
prompt is estimated at 1000 tokens, any longer text at 400 tokens; the
context window leaves `remaining_tokens = 200`. -/
def llm1 : LLM Unit :=
  ⟨fun s t => (.ok (if t.length = 1 then 1000 else 400), s), 200, 0⟩

/-- Target model of the C1 counterexample: every estimate is 50 tokens and
`remaining_tokens = 40`, so the prompt is over budget while the background
is estimated at only 50 tokens (below the default overlap of 100). -/
def llm0 : LLM Unit :=
  ⟨fun s _ => (.ok 50, s), 40, 0⟩

/-- An in-budget target model: every estimate is 5 tokens against
`remaining_tokens = 100`. -/
def llm2 : LLM Unit :=
  ⟨fun s _ => (.ok 5, s), 100, 0⟩

/-- The compression model registered under the name `"c"`. -/
def llmC : LLM Unit :=
  ⟨fun s _ => (.ok 7, s), 50, 0⟩

/-- Environment around `llm1`: model registry entries `"m"` (target) and
`"c"` (compression), the two default prompt-registry entries, and stub
summarization chains answering `"S"` (stuff) and `"M"` (map-reduce). -/
def env1 : Env Unit :=
  ⟨fun n => if n = "m" then some llm1 else if n = "c" then some llmC else none,
   fun n => if n = "prompt_processor.summary_cn" then some ⟨"SP"⟩
            else if n = "prompt_processor.combine_cn" then some ⟨"CP"⟩ else none,
   fun _ _ _ s => (.ok ['S'], s),
   fun _ _ _ _ s => (.ok ['M'], s)⟩

/-- Environment around `llm0` (the C1 counterexample). -/
def env0 : Env Unit :=
  ⟨fun n => if n = "m" then some llm0 else none,
   fun _ => none,
   fun _ _ _ s => (.error (.other "unused"), s),
   fun _ _ _ _ s => (.error (.other "unused"), s)⟩

/-- Environment around the in-budget model `llm2`. -/
def env2 : Env Unit :=
  ⟨fun n => if n = "m" then some llm2 else none,
   fun _ => none,
   fun _ _ _ s => (.error (.other "unused"), s),
   fun _ _ _ _ s => (.error (.other "unused"), s)⟩

/-- A profile with no `prompt_processor` configuration at all: every
option takes its default. -/
def profile0 : Profile := ⟨⟨"m", none⟩⟩

/-- A profile selecting the `'stuff'` policy and the compression model
`"c"`, leaving both prompt versions to their defaults. -/
def profileS : Profile := ⟨⟨"m", some ⟨some "stuff", some "c", none, none⟩⟩⟩

/-- A profile selecting the `'map_reduce'` policy and the compression
model `"c"`, leaving both prompt versions to their defaults. -/
def profileM : Profile := ⟨⟨"m", some ⟨some "map_reduce", some "c", none, none⟩⟩⟩

/-- A template with no declared variables whose formatted prompt is the
one-character text `"p"`. -/
def tmpl0 : PromptTemplate := ⟨[], fun _ => ['p']⟩

/-- Planner input of the truncation scenarios: an 8-character background
plus one unrelated key `"query"`. -/
def m1 : PlannerInput :=
  fun k => if k = "background" then some (List.replicate 8 'b')
           else if k = "query" then some ['q'] else none

/-- Planner input of the C1 counterexample: a 2-character background. -/
def m0 : PlannerInput :=
  fun k => if k = "background" then some ['a', 'b'] else none

/-- The estimator used by the C10 witness: every text is estimated at 400
tokens. -/
def llm10 : LLM Unit :=
  ⟨fun s _ => (.ok 400, s), 0, 0⟩

/-! ### Helper lemmas -/

deriving instance DecidableEq for Except

/-- `Int.tdiv` on natural casts is natural division. -/
theorem tdiv_natCast (a b : Nat) : Int.tdiv (a : Int) (b : Int) = ((a / b : Nat) : Int) := rfl

/-- Truncating division of a nonpositive number by a nonnegative one is
nonpositive. -/
theorem tdiv_nonpos_left {a b : Int} (h : a ≤ 0) (hb : 0 ≤ b) : Int.tdiv a b ≤ 0 := by
  have h3 : Int.tdiv a b = -(Int.tdiv (-a) b) := by rw [← Int.neg_tdiv, neg_neg]
  have h2 : 0 ≤ Int.tdiv (-a) b := Int.tdiv_nonneg (by omega) hb
  omega

/-- Unfolding equation of `splitLoop` at a positive fuel value. -/
theorem splitLoop_succ (t : List Char) (ccs cco : Int) (fuel : Nat) (pos : Int) :
    splitLoop t ccs cco (fuel + 1) pos =
      if pos + cco < (t.length : Int) then
        Option.map (fun r => chunkAt t pos ccs :: r) (splitLoop t ccs cco fuel (pos + (ccs - cco)))
      else some [] := rfl

/-- With `chunk_char_size = chunk_char_overlap = 0` the cursor never
advances and the loop condition stays true: the loop of
`split_text_on_tokens` never terminates on a non-empty text (modelled:
every fuel value is exhausted). -/
theorem splitLoop_stuck (t : List Char) (h : 0 < t.length) :
    ∀ fuel : Nat, splitLoop t 0 0 fuel 0 = none := by
  intro fuel
  induction fuel with
  | zero => rfl
  | succ f ih =>
    have hg : (0 : Int) + 0 < (t.length : Int) := by omega
    rw [splitLoop_succ, if_pos hg]
    rw [show (0 : Int) + (0 - 0) = 0 by norm_num, ih]
    rfl

/-! ### Claim theorems -/

/-- C9: for every text and `estimated_token_count == 0`,
`split_text_on_tokens` fails with a division error (`ZeroDivisionError`
from `len(text) / text_token`), never silently returning an empty chunk
sequence. -/
theorem c9_zero_token_estimate (text : List Char) (chunk_size chunk_overlap : Int) :
    split_text_on_tokens text 0 chunk_size chunk_overlap = some (.error .zeroDivision) := by
  simp [split_text_on_tokens]

/-- C4: the code has no guard for `chunk_char_size <= chunk_char_overlap`.
At the concrete input (10 characters, estimated at 10000 tokens, default
chunk parameters) both derived spans are 0 and the cursor never advances:
the model of `split_text_on_tokens` diverges (`none`), and its loop
exhausts every fuel value, contradicting the claimed fail-fast
configuration error. -/
theorem c4_overlap_ge_size_loops_forever :
    split_text_on_tokens (List.replicate 10 'a') 10000 800 100 = none ∧
    ∀ fuel : Nat, splitLoop (List.replicate 10 'a') 0 0 fuel 0 = none := by
  exact ⟨by decide, splitLoop_stuck (List.replicate 10 'a') (by simp)⟩

/-- C3: for a 4000-character text estimated at 1000 tokens with
`chunk_size=800, chunk_overlap=100`, the derived spans are
`chunk_char_size = 3200` and `chunk_char_overlap = 400`, and exactly two
chunks are returned: characters `[0, 3200)` and characters `[2800, 4000)`
(of length 1200). -/
theorem c3_two_chunk_scenario (text : List Char) (h : text.length = 4000) :
    Int.tdiv (800 * (text.length : Int)) ((1000 : Nat) : Int) = 3200 ∧
    Int.tdiv (100 * (text.length : Int)) ((1000 : Nat) : Int) = 400 ∧
    split_text_on_tokens text 1000 800 100 =
      some (.ok [text.take 3200, text.drop 2800]) := by
  have e1 : Int.tdiv (800 * (text.length : Int)) ((1000 : Nat) : Int) = 3200 := by
    rw [h]; decide
  have e2 : Int.tdiv (100 * (text.length : Int)) ((1000 : Nat) : Int) = 400 := by
    rw [h]; decide
  refine ⟨e1, e2, ?_⟩
  have hc0 : chunkAt text 0 3200 = text.take 3200 := by
    unfold chunkAt
    rw [if_neg (by rw [h]; decide)]
    unfold pySlice
    rw [h]
    rw [show pyIndex 4000 ((0 : Int) + 3200) = 3200 from rfl,
        show pyIndex 4000 (0 : Int) = 0 from rfl]
    rw [List.drop_zero]
  have hc2 : chunkAt text 2800 3200 = text.drop 2800 := by
    unfold chunkAt
    rw [if_pos (by rw [h]; decide)]
    unfold pySliceFrom
    rw [h]
    rw [show pyIndex 4000 (2800 : Int) = 2800 from rfl]
  simp only [split_text_on_tokens]
  rw [e1, e2, h]
  rw [show (4000 : Nat) + ((400 : Int)).natAbs + 1 = 4400 + 1 from rfl]
  rw [splitLoop_succ, h, if_pos (by decide : (0 : Int) + 400 < ((4000 : Nat) : Int))]
  rw [show (0 : Int) + (3200 - 400) = 2800 by norm_num]
  rw [show (4400 : Nat) = 4399 + 1 from rfl]
  rw [splitLoop_succ, h, if_pos (by decide : (2800 : Int) + 400 < ((4000 : Nat) : Int))]
  rw [show (2800 : Int) + (3200 - 400) = 5600 by norm_num]
  rw [show (4399 : Nat) = 4398 + 1 from rfl]
  rw [splitLoop_succ, h, if_neg (by decide : ¬((5600 : Int) + 400 < ((4000 : Nat) : Int)))]
  simp [hc0, hc2]

/-- Witness for C3 at the concrete 4000-character text. -/
theorem c3_two_chunk_scenario_witness :
    (List.replicate 4000 'a').length = 4000 ∧
    (Int.tdiv (800 * ((List.replicate 4000 'a').length : Int)) ((1000 : Nat) : Int) = 3200 ∧
     Int.tdiv (100 * ((List.replicate 4000 'a').length : Int)) ((1000 : Nat) : Int) = 400 ∧
     split_text_on_tokens (List.replicate 4000 'a') 1000 800 100 =
       some (.ok [(List.replicate 4000 'a').take 3200, (List.replicate 4000 'a').drop 2800])) :=
  ⟨List.length_replicate 4000 'a',
   c3_two_chunk_scenario (List.replicate 4000 'a') (List.length_replicate 4000 'a')⟩

/-- A Python slice reaching exactly the end of the text is the tail
slice. -/
theorem pySlice_length_end (t : List Char) (a : Int) :
    pySlice t a (t.length : Int) = pySliceFrom t a := by
  unfold pySlice pySliceFrom pyIndex
  have h1 : ¬((t.length : Int) < 0) := by omega
  rw [if_neg h1, Int.toNat_natCast, min_self, List.take_length]

/-- Every emitted chunk is the Python slice of its span, the span being
clipped to the text length on the final chunk. -/
theorem chunkAt_eq_slice (t : List Char) (pos ccs : Int) :
    chunkAt t pos ccs =
      pySlice t pos (if (t.length : Int) ≤ pos + ccs then (t.length : Int) else pos + ccs) := by
  unfold chunkAt
  by_cases hc : (t.length : Int) ≤ pos + ccs
  · rw [if_pos hc, if_pos hc, pySlice_length_end]
  · rw [if_neg hc, if_neg hc]

/-- Master lemma on the chunker loop: when the cursor advance
`chunk_char_size - chunk_char_overlap` is positive, the loop terminates
within the supplied fuel, the produced chunks are the Python slices of a
sequence of spans, and (whenever the loop runs at all from `pos`) those
spans cover every position from `pos` to the end of the text. -/
theorem splitLoop_cover (t : List Char) (ccs cco : Int)
    (h1 : cco + 1 ≤ ccs) (h0 : 0 ≤ cco) :
    ∀ (fuel : Nat) (pos : Int), 0 ≤ pos → ((t.length : Int) - pos).toNat + 1 ≤ fuel →
      ∃ spans : List (Int × Int),
        splitLoop t ccs cco fuel pos = some (spans.map fun p => pySlice t p.1 p.2) ∧
        (pos + cco < (t.length : Int) →
          ∀ i : Int, pos ≤ i → i < (t.length : Int) → ∃ p ∈ spans, p.1 ≤ i ∧ i < p.2) := by
  intro fuel
  induction fuel with
  | zero => intro pos hp hf; exact absurd hf (by omega)
  | succ f ih =>
    intro pos hp hf
    by_cases hg : pos + cco < (t.length : Int)
    · have hp' : 0 ≤ pos + (ccs - cco) := by omega
      have hf' : ((t.length : Int) - (pos + (ccs - cco))).toNat + 1 ≤ f := by omega
      obtain ⟨spans', heq', hcov'⟩ := ih (pos + (ccs - cco)) hp' hf'
      refine ⟨(pos, if (t.length : Int) ≤ pos + ccs then (t.length : Int) else pos + ccs)
          :: spans', ?_, ?_⟩
      · rw [splitLoop_succ, if_pos hg, heq']
        simp only [Option.map_some', List.map_cons]
        rw [chunkAt_eq_slice]
      · intro _ i hi1 hi2
        by_cases hlt : i < (if (t.length : Int) ≤ pos + ccs then (t.length : Int) else pos + ccs)
        · exact ⟨(pos, _), List.mem_cons_self _ _, hi1, hlt⟩
        · have hstop : ¬((t.length : Int) ≤ pos + ccs) := by
            by_contra hcge
            rw [if_pos hcge] at hlt
            omega
          rw [if_neg hstop] at hlt
          have hg' : (pos + (ccs - cco)) + cco < (t.length : Int) := by omega
          obtain ⟨p, hpmem, hpa, hpb⟩ := hcov' hg' i (by omega) hi2
          exact ⟨p, List.mem_cons_of_mem _ hpmem, hpa, hpb⟩
    · refine ⟨[], ?_, fun hgg => absurd hgg hg⟩
      rw [splitLoop_succ, if_neg hg]
      rfl

/-- C2 (amended): for non-empty text, a positive token estimate and
`chunk_size > chunk_overlap > 0`, *provided additionally* that the derived
character overlap is smaller than the text length (otherwise the chunk
list is empty, see the counterexample) and smaller than the derived
character chunk size (otherwise the loop never terminates, see C4), the
returned chunks are the Python slices of spans covering every character
position of the text from 0 to `len(text)` with no gap. -/
theorem c2_chunk_coverage (text : List Char) (tok : Nat) (cs co : Int)
    (hne : text ≠ []) (htok : 0 < tok) (hco : 0 < co) (hcs : co < cs)
    (hcc : Int.tdiv (co * (text.length : Int)) (tok : Int) + 1 ≤
           Int.tdiv (cs * (text.length : Int)) (tok : Int))
    (hol : Int.tdiv (co * (text.length : Int)) (tok : Int) < (text.length : Int)) :
    ∃ spans : List (Int × Int),
      split_text_on_tokens text tok cs co =
        some (.ok (spans.map fun p => pySlice text p.1 p.2)) ∧
      ∀ i : Int, 0 ≤ i → i < (text.length : Int) → ∃ p ∈ spans, p.1 ≤ i ∧ i < p.2 := by
  have h0 : 0 ≤ Int.tdiv (co * (text.length : Int)) (tok : Int) :=
    Int.tdiv_nonneg (mul_nonneg (le_of_lt hco) (Int.natCast_nonneg _)) (Int.natCast_nonneg _)
  obtain ⟨spans, heq, hcov⟩ := splitLoop_cover text _ _ hcc h0
    (text.length + (Int.tdiv (co * (text.length : Int)) (tok : Int)).natAbs + 1) 0
    le_rfl (by omega)
  refine ⟨spans, ?_, fun i hi1 hi2 => hcov (by omega) i hi1 hi2⟩
  simp only [split_text_on_tokens]
  rw [if_neg (show ¬(tok = 0) by omega), heq]

/-- C2 counterexample: a 10-character text estimated at 1 token with the
default parameters `chunk_size=800 > chunk_overlap=100 > 0` satisfies all
hypotheses of the claim, yet the derived character overlap (1000) reaches
the text length, the loop body never runs, and `split_text_on_tokens`
returns an *empty* chunk list, so no chunk span covers position 0. -/
theorem c2_counterexample :
    (List.replicate 10 'a' ≠ [] ∧ (0 : Nat) < 1 ∧ (100 : Int) < 800 ∧ (0 : Int) < 100) ∧
    split_text_on_tokens (List.replicate 10 'a') 1 800 100 = some (.ok []) ∧
    ¬ ∃ spans : List (Int × Int),
        split_text_on_tokens (List.replicate 10 'a') 1 800 100 =
          some (.ok (spans.map fun p => pySlice (List.replicate 10 'a') p.1 p.2)) ∧
        ∀ i : Int, 0 ≤ i → i < ((List.replicate 10 'a').length : Int) →
          ∃ p ∈ spans, p.1 ≤ i ∧ i < p.2 := by
  have h : split_text_on_tokens (List.replicate 10 'a') 1 800 100 = some (.ok []) := by
    decide
  refine ⟨⟨by decide, by decide, by decide, by decide⟩, h, ?_⟩
  rintro ⟨spans, heq, hcov⟩
  rw [h] at heq
  have hsp : spans = [] := by
    cases spans with
    | nil => rfl
    | cons p l => simp at heq
  subst hsp
  obtain ⟨p, hp, -, -⟩ := hcov 0 le_rfl (by rw [List.length_replicate]; norm_num)
  simp at hp

/-- Witness for the amended C2 on a 4-character text estimated at 2
tokens with `chunk_size=2, chunk_overlap=1`. -/
theorem c2_chunk_coverage_witness :
    ∃ spans : List (Int × Int),
      split_text_on_tokens (List.replicate 4 'a') 2 2 1 =
        some (.ok (spans.map fun p => pySlice (List.replicate 4 'a') p.1 p.2)) ∧
      ∀ i : Int, 0 ≤ i → i < ((List.replicate 4 'a').length : Int) →
        ∃ p ∈ spans, p.1 ≤ i ∧ i < p.2 :=
  c2_chunk_coverage (List.replicate 4 'a') 2 2 1 (by decide) (by decide) (by decide)
    (by decide) (by decide) (by decide)

/-- The first chunk a terminating run of the loop produces is always the
chunk emitted at the starting cursor position. -/
theorem splitLoop_cons_head (t : List Char) (ccs cco : Int) (fuel : Nat) (pos : Int)
    (c : List Char) (r : List (List Char))
    (h : splitLoop t ccs cco fuel pos = some (c :: r)) : c = chunkAt t pos ccs := by
  cases fuel with
  | zero => exact absurd h (by simp [splitLoop])
  | succ f =>
    rw [splitLoop_succ] at h
    by_cases hg : pos + cco < (t.length : Int)
    · rw [if_pos hg] at h
      obtain ⟨l, -, hfl⟩ := Option.map_eq_some'.mp h
      injection hfl with h1 h2
      exact h1.symm
    · rw [if_neg hg] at h
      simp at h

/-- The chunk emitted at cursor position 0 starts at character 0 of the
text: it is a prefix. -/
theorem chunkAt_zero_starts (t : List Char) (x : Int) : chunkAt t 0 x <+: t := by
  have h0 : pyIndex t.length 0 = 0 := by
    unfold pyIndex
    rw [if_neg (by omega)]
    simp
  unfold chunkAt
  by_cases hc : (t.length : Int) ≤ 0 + x
  · rw [if_pos hc]
    unfold pySliceFrom
    rw [h0, List.drop_zero]
  · rw [if_neg hc]
    unfold pySlice
    rw [h0, List.drop_zero]
    exact ⟨t.drop (pyIndex t.length (0 + x)), List.take_append_drop _ t⟩

/-- A successful single-text attempt returns the chunk list of that text;
its first chunk is a prefix of the text. -/
theorem splitAttempt_single_starts {σ : Type} (llm : LLM σ) (cs co : Int)
    (content : List Char) (s : σ) (c : List Char) (r : List (List Char)) (s2 : σ)
    (h : splitAttempt llm cs co [content] s = some (.ok (c :: r), s2)) :
    c <+: content := by
  unfold splitAttempt at h
  rcases hgt : llm.get_num_tokens s content with ⟨res, s1⟩
  rw [hgt] at h
  rcases res with e | tok
  · simp at h
  · dsimp only at h
    rcases hst : split_text_on_tokens content tok cs co with - | r4
    · rw [hst] at h
      simp at h
    · rcases r4 with e | chunks
      · rw [hst] at h
        simp at h
      · rw [hst] at h
        have hnil : splitAttempt llm cs co [] s1 = some (.ok [], s1) := rfl
        simp only [hnil] at h
        simp at h
        obtain ⟨hch, -⟩ := h
        simp only [split_text_on_tokens] at hst
        by_cases htz : tok = 0
        · rw [if_pos htz] at hst
          simp at hst
        · rw [if_neg htz] at hst
          set A := Int.tdiv (cs * (content.length : Int)) (tok : Int) with hA
          set B := Int.tdiv (co * (content.length : Int)) (tok : Int) with hB
          rcases hlp : splitLoop content A B (content.length + B.natAbs + 1) 0 with - | l
          · rw [hlp] at hst
            simp at hst
          · rw [hlp] at hst
            simp at hst
            have hl : splitLoop content A B (content.length + B.natAbs + 1) 0 =
                some (c :: r) := by rw [hlp, hst, ← hch]
            have head := splitLoop_cons_head content A B _ 0 c r hl
            rw [head]
            exact chunkAt_zero_starts content A

/-- C10: whenever `truncate_content` returns normally, the returned
string is a prefix of the original content — the kept chunk always starts
at character 0, so truncation never drops a prefix or rewrites
characters. -/
theorem c10_truncate_head {σ : Type} (agent_llm : LLM σ) (content : List Char)
    (token_length : Int) (s : σ) (c : List Char) (s9 : σ)
    (h : truncate_content content token_length agent_llm s = some (.ok c, s9)) :
    c <+: content := by
  unfold truncate_content at h
  rcases h1 : split_texts agent_llm [content] token_length 100 true s with - | ⟨r1, s1⟩
  · rw [h1] at h
    simp at h
  · rcases r1 with e | chunks
    · rw [h1] at h
      simp at h
    · rcases chunks with - | ⟨c0, rest⟩
      · rw [h1] at h
        simp at h
      · rw [h1] at h
        simp at h
        obtain ⟨hc, -⟩ := h
        subst hc
        unfold split_texts at h1
        rcases h2 : splitAttempt agent_llm token_length 100 [content] s with - | ⟨r2, s2⟩
        · rw [h2] at h1
          simp at h1
        · rcases r2 with e | chunks2
          · rw [h2] at h1
            dsimp only at h1
            rw [if_pos rfl] at h1
            rcases h3 : splitAttempt agent_llm 800 100 [content] s2 with - | ⟨r3, s3⟩
            · rw [h3] at h1
              simp at h1
            · rcases r3 with e2 | chunks3
              · rw [h3] at h1
                simp at h1
              · rw [h3] at h1
                simp at h1
                obtain ⟨hc3, -⟩ := h1
                exact splitAttempt_single_starts agent_llm 800 100 content s2 c0 rest s3
                  (by rw [h3, hc3])
          · rw [h2] at h1
            simp at h1
            obtain ⟨hc2, -⟩ := h1
            exact splitAttempt_single_starts agent_llm token_length 100 content s c0 rest s2
              (by rw [h2, hc2])

/-- Witness for C10: a 4-character content estimated at 400 tokens with
`token_length = 400` is returned whole, and is (trivially) a prefix of
itself. -/
theorem c10_truncate_head_witness :
    truncate_content ['a', 'b', 'c', 'd'] 400 llm10 () = some (.ok ['a', 'b', 'c', 'd'], ()) ∧
    ['a', 'b', 'c', 'd'] <+: ['a', 'b', 'c', 'd'] := by
  have h : truncate_content ['a', 'b', 'c', 'd'] 400 llm10 () =
      some (.ok ['a', 'b', 'c', 'd'], ()) := by decide
  exact ⟨h, c10_truncate_head llm10 ['a', 'b', 'c', 'd'] 400 () ['a', 'b', 'c', 'd'] () h⟩

/-- With the default chunk parameters `(800, 100)`, a positive token
estimate of at most `800 * len(text)` makes the chunker terminate
successfully: the derived chunk size strictly exceeds the derived
overlap. -/
theorem default_split_ok (t : List Char) (tok : Nat) (h0 : 0 < tok)
    (h8 : tok ≤ 800 * t.length) :
    ∃ chunks, split_text_on_tokens t tok 800 100 = some (.ok chunks) := by
  have f1 : 1 ≤ 800 * t.length / tok := (Nat.one_le_div_iff h0).mpr h8
  have f2 : 8 * (100 * t.length / tok) ≤ 800 * t.length / tok := by
    rw [Nat.le_div_iff_mul_le h0]
    calc 8 * (100 * t.length / tok) * tok
        = 8 * (100 * t.length / tok * tok) := by ring
      _ ≤ 8 * (100 * t.length) :=
          Nat.mul_le_mul_left 8 (Nat.div_mul_le_self (100 * t.length) tok)
      _ = 800 * t.length := by ring
  have hlt : 100 * t.length / tok < 800 * t.length / tok := by omega
  have hccA : Int.tdiv ((800 : Int) * (t.length : Int)) (tok : Int) =
      ((800 * t.length / tok : Nat) : Int) := by
    rw [show ((800 : Int) * (t.length : Int)) = ((800 * t.length : Nat) : Int) by push_cast; ring]
    exact tdiv_natCast _ _
  have hccB : Int.tdiv ((100 : Int) * (t.length : Int)) (tok : Int) =
      ((100 * t.length / tok : Nat) : Int) := by
    rw [show ((100 : Int) * (t.length : Int)) = ((100 * t.length : Nat) : Int) by push_cast; ring]
    exact tdiv_natCast _ _
  have h1 : Int.tdiv ((100 : Int) * (t.length : Int)) (tok : Int) + 1 ≤
      Int.tdiv ((800 : Int) * (t.length : Int)) (tok : Int) := by
    rw [hccA, hccB]
    exact_mod_cast hlt
  have h0' : 0 ≤ Int.tdiv ((100 : Int) * (t.length : Int)) (tok : Int) := by
    rw [hccB]
    exact Int.natCast_nonneg _
  obtain ⟨spans, heq, -⟩ := splitLoop_cover t _ _ h1 h0'
    (t.length + (Int.tdiv ((100 : Int) * (t.length : Int)) (tok : Int)).natAbs + 1) 0
    le_rfl (by omega)
  refine ⟨spans.map fun p => pySlice t p.1 p.2, ?_⟩
  simp only [split_text_on_tokens]
  rw [if_neg (show ¬(tok = 0) by omega), heq]

/-- From any state of at least one past call, the failing-once estimator
behaves exactly like the pure one: the whole batch splits to the same
chunk list. -/
theorem splitAttempt_count_pos (f : List Char → Nat) (e : PyErr) :
    ∀ (texts : List (List Char)) (s : Nat), 1 ≤ s →
      (∀ t ∈ texts, 0 < f t ∧ f t ≤ 800 * t.length) →
      ∃ R n, splitAttempt (countLLM f e) 800 100 texts s = some (.ok R, n) ∧
             splitAttempt (pureLLM f) 800 100 texts () = some (.ok R, ()) := by
  intro texts
  induction texts with
  | nil => exact fun s hs hf => ⟨[], s, rfl, rfl⟩
  | cons t rest ih =>
    intro s hs hf
    obtain ⟨h0, h8⟩ := hf t (List.mem_cons_self t rest)
    obtain ⟨chunks, hch⟩ := default_split_ok t (f t) h0 h8
    obtain ⟨R, n, hR1, hR2⟩ := ih (s + 1) (by omega)
      (fun u hu => hf u (List.mem_cons_of_mem t hu))
    refine ⟨chunks ++ R, n, ?_, ?_⟩
    · have hest : (countLLM f e).get_num_tokens s t = (.ok (f t), s + 1) := by
        unfold countLLM
        dsimp
        rw [if_neg (by omega)]
      simp only [splitAttempt]
      rw [hest]
      dsimp only
      rw [hch]
      dsimp only
      rw [hR1]
    · have hest : (pureLLM f).get_num_tokens () t = (.ok (f t), ()) := rfl
      simp only [splitAttempt]
      rw [hest]
      dsimp only
      rw [hch]
      dsimp only
      rw [hR2]

/-- C5 (amended): for every non-empty batch and an estimator that raises
on its first call and afterwards returns positive estimates of at most
`800 * len(text)` per text (so that the retried chunking itself
succeeds — see the counterexample for an estimator whose second attempt
returns 0), `split_texts` with `retry=true` retries the batch once with
`retry=false` and default parameters, succeeds, and returns the same
chunk list as a run whose estimator succeeds from the start; with
`retry=false` it raises the wrapped split-failed error. -/
theorem c5_splitter_retry (f : List Char → Nat) (e : PyErr) (texts : List (List Char))
    (hne : texts ≠ []) (hf : ∀ t ∈ texts, 0 < f t ∧ f t ≤ 800 * t.length) :
    (∃ R n, split_texts (countLLM f e) texts 800 100 true 0 = some (.ok R, n) ∧
            split_texts (pureLLM f) texts 800 100 true () = some (.ok R, ())) ∧
    split_texts (countLLM f e) texts 800 100 false 0 =
      some (.error (.valueError ("split text failed, exception=" ++ pyErrStr e)), 1) := by
  obtain ⟨t, rest, rfl⟩ := List.exists_cons_of_ne_nil hne
  have hest0 : (countLLM f e).get_num_tokens 0 t = (.error e, 1) := rfl
  have hfail : splitAttempt (countLLM f e) 800 100 (t :: rest) 0 = some (.error e, 1) := by
    simp only [splitAttempt]
    rw [hest0]
  obtain ⟨R, n, hR1, hR2⟩ := splitAttempt_count_pos f e (t :: rest) 1 le_rfl hf
  refine ⟨⟨R, n, ?_, ?_⟩, ?_⟩
  · unfold split_texts
    rw [hfail]
    dsimp only
    rw [hR1]
    rfl
  · unfold split_texts
    rw [hR2]
  · unfold split_texts
    rw [hfail]
    rfl

/-- C5 counterexample: an estimator that raises `"E1"` on its first call
and then "succeeds" with the estimate 0 satisfies the claim's premises,
yet `split_texts` with `retry=true` does not succeed: the retry divides
by zero and the wrapped split-failed error is raised. -/
theorem c5_counterexample :
    split_texts (countLLM (fun _ => 0) (.other "E1")) [['a']] 800 100 true 0 =
      some (.error (.valueError "split text failed, exception=division by zero"), 2) ∧
    ¬ ∃ R n, split_texts (countLLM (fun _ => 0) (.other "E1")) [['a']] 800 100 true 0 =
        some (.ok R, n) := by
  have h : split_texts (countLLM (fun _ => 0) (.other "E1")) [['a']] 800 100 true 0 =
      some (.error (.valueError "split text failed, exception=division by zero"), 2) := by
    decide
  refine ⟨h, ?_⟩
  rintro ⟨R, n, h2⟩
  rw [h] at h2
  simp at h2

/-- Witness for the amended C5: a two-character text estimated at 1000
tokens after the initial failure. -/
theorem c5_splitter_retry_witness :
    (∃ R n, split_texts (countLLM (fun _ => 1000) (.other "boom")) [['a', 'b']] 800 100 true 0 =
              some (.ok R, n) ∧
            split_texts (pureLLM (fun _ => 1000)) [['a', 'b']] 800 100 true () =
              some (.ok R, ())) ∧
    split_texts (countLLM (fun _ => 1000) (.other "boom")) [['a', 'b']] 800 100 false 0 =
      some (.error (.valueError ("split text failed, exception=" ++ pyErrStr (.other "boom"))), 1) :=
  c5_splitter_retry (fun _ => 1000) (.other "boom") [['a', 'b']] (by decide) (by decide)

/-- C6 (amended): when the first attempt of `split_texts` fails with
`e1` and the single retry (default parameters) fails with `e2`, the call
raises the wrapped `"split text failed"` `ValueError` — re-raised, not
swallowed — but the message carries the cause of the *retry* attempt
`e2`, not the original first-attempt cause `e1`. -/
theorem c6_wrapped_error {σ : Type} (llm : LLM σ) (texts : List (List Char))
    (cs co : Int) (s s1 s2 : σ) (e1 e2 : PyErr)
    (h1 : splitAttempt llm cs co texts s = some (.error e1, s1))
    (h2 : splitAttempt llm 800 100 texts s1 = some (.error e2, s2)) :
    split_texts llm texts cs co true s =
      some (.error (.valueError ("split text failed, exception=" ++ pyErrStr e2)), s2) := by
  unfold split_texts
  rw [h1]
  dsimp only
  rw [h2]
  rfl

/-- C6 counterexample: with an estimator raising `"E1"` on the first call
and `"E2"` on the second, the surfaced wrapped error carries `"E2"` (the
retry's cause) and not the original first-attempt cause `"E1"`, refuting
the claim as stated. -/
theorem c6_counterexample :
    split_texts twoErrLLM [['a']] 800 100 true 0 =
      some (.error (.valueError "split text failed, exception=E2"), 2) ∧
    split_texts twoErrLLM [['a']] 800 100 true 0 ≠
      some (.error (.valueError ("split text failed, exception=" ++ pyErrStr (.other "E1"))), 2) := by
  constructor
  · decide
  · decide

/-- Witness for the amended C6 on the two-error estimator. -/
theorem c6_wrapped_error_witness :
    split_texts twoErrLLM [['a']] 800 100 true 0 =
      some (.error (.valueError ("split text failed, exception=" ++ pyErrStr (.other "E2"))), 2) :=
  c6_wrapped_error twoErrLLM [['a']] 800 100 0 1 2 (.other "E1") (.other "E2")
    (by decide) (by decide)

/-- Writing the background key leaves every other key untouched. -/
theorem setKey_ne (m : PlannerInput) (v : List Char) (k : String) (hk : k ≠ "background") :
    setKey m "background" v k = m k := by
  unfold setKey
  rw [if_neg hk]

/-- Any successful strategy result only rewrites the background key. -/
theorem applyBg_frame {σ : Type} (m : PlannerInput) (r : Option (Except PyErr (List Char) × σ))
    (m' : PlannerInput) (s' : σ) (h : applyBg m r = some (.ok m', s')) :
    ∀ k : String, k ≠ "background" → m' k = m k := by
  intro k hk
  rcases r with - | ⟨res, s1⟩
  · simp [applyBg] at h
  · rcases res with e | bg
    · simp [applyBg] at h
    · simp [applyBg] at h
      obtain ⟨hm, -⟩ := h
      rw [← hm]
      exact setKey_ne m bg k hk

/-- C7: `process_llm_token` never modifies a key other than
`'background'` (for every invocation that returns a rewritten planner
input, all other keys read back unchanged), and whenever the estimated
prompt token count is within `remaining_tokens` the call is a no-op
returning the planner input unchanged. -/
theorem c7_frame_and_noop {σ : Type} (env : Env σ) (tm : PromptTemplate) (profile : Profile)
    (m : PlannerInput) (s : σ) :
    (∀ (m' : PlannerInput) (s' : σ),
        process_llm_token env tm profile m s = some (.ok m', s') →
        ∀ k : String, k ≠ "background" → m' k = m k) ∧
    (∀ (agent_llm prompt_llm : LLM σ) (ptk : Nat) (s1 : σ),
        env.get_llm profile.llm_model.name = some agent_llm →
        env.get_llm (resolved_llm profile) = some prompt_llm →
        agent_llm.get_num_tokens s (tm.format (restrict tm.input_variables m)) =
          (.ok ptk, s1) →
        (ptk : Int) ≤ remaining_tokens agent_llm →
        process_llm_token env tm profile m s = some (.ok m, s1)) := by
  constructor
  · intro m' s' h k hk
    unfold process_llm_token at h
    rcases hA : env.get_llm profile.llm_model.name with - | agent_llm
    · rw [hA] at h
      simp at h
    · rw [hA] at h
      dsimp only at h
      rcases hB : env.get_llm (resolved_llm profile) with - | prompt_llm
      · rw [hB] at h
        simp at h
      · rw [hB] at h
        dsimp only at h
        rcases hT : agent_llm.get_num_tokens s (tm.format (restrict tm.input_variables m))
          with ⟨res, s1⟩
        rw [hT] at h
        rcases res with e | ptk
        · simp at h
        · dsimp only at h
          by_cases hle : (ptk : Int) ≤ remaining_tokens agent_llm
          · rw [if_pos hle] at h
            simp at h
            obtain ⟨hm, -⟩ := h
            rw [← hm]
          · rw [if_neg hle] at h
            rcases hfv : PromptProcessEnum.from_value (resolved_type profile) with e | pe
            · rw [hfv] at h
              simp at h
            · rw [hfv] at h
              dsimp only at h
              rcases hbg : m "background" with - | content
              · rw [hbg] at h
                simp at h
              · rw [hbg] at h
                dsimp only at h
                cases pe
                all_goals exact applyBg_frame m _ m' s' h k hk
  · intro agent_llm prompt_llm ptk s1 hA hB hT hle
    unfold process_llm_token
    rw [hA]
    dsimp only
    rw [hB]
    dsimp only
    rw [hT]
    dsimp only
    rw [if_pos hle]

/-- Dispatch of an over-budget `process_llm_token` call on the resolved
policy string: each policy invokes exactly its own strategy, on the
background content, with the configured compression model and prompt
versions. -/
theorem process_dispatch {σ : Type} (env : Env σ) (tm : PromptTemplate) (profile : Profile)
    (m : PlannerInput) (s : σ) (agent_llm prompt_llm : LLM σ) (ptk : Nat) (s1 : σ)
    (content : List Char)
    (hA : env.get_llm profile.llm_model.name = some agent_llm)
    (hB : env.get_llm (resolved_llm profile) = some prompt_llm)
    (hT : agent_llm.get_num_tokens s (tm.format (restrict tm.input_variables m)) =
      (.ok ptk, s1))
    (hover : remaining_tokens agent_llm < (ptk : Int))
    (hbg : m "background" = some content) :
    (resolved_type profile = "truncate" →
      process_llm_token env tm profile m s =
        applyBg m (truncate_content content (remaining_tokens agent_llm) agent_llm s1)) ∧
    (resolved_type profile = "stuff" →
      process_llm_token env tm profile m s =
        applyBg m (summarize_by_stuff env [content] prompt_llm
          (resolved_summary_version profile) s1)) ∧
    (resolved_type profile = "map_reduce" →
      process_llm_token env tm profile m s =
        applyBg m (summarize_by_map_reduce env [content] prompt_llm agent_llm
          (resolved_summary_version profile) (resolved_combine_version profile) s1)) := by
  have hplumb : ∀ pe : PromptProcessEnum,
      PromptProcessEnum.from_value (resolved_type profile) = .ok pe →
      process_llm_token env tm profile m s =
        (match pe with
         | .TRUNCATE =>
            applyBg m (truncate_content content (remaining_tokens agent_llm) agent_llm s1)
         | .STUFF =>
            applyBg m (summarize_by_stuff env [content] prompt_llm
              (resolved_summary_version profile) s1)
         | .MAP_REDUCE =>
            applyBg m (summarize_by_map_reduce env [content] prompt_llm agent_llm
              (resolved_summary_version profile) (resolved_combine_version profile) s1)) := by
    intro pe hfv
    unfold process_llm_token
    rw [hA]
    dsimp only
    rw [hB]
    dsimp only
    rw [hT]
    dsimp only
    rw [if_neg (not_le.mpr hover), hfv]
    dsimp only
    rw [hbg]
  refine ⟨fun hty => ?_, fun hty => ?_, fun hty => ?_⟩
  · rw [hplumb .TRUNCATE (by rw [hty]; rfl)]
  · rw [hplumb .STUFF (by rw [hty]; rfl)]
  · rw [hplumb .MAP_REDUCE (by rw [hty]; rfl)]

/-- C8: over-budget dispatch and configuration defaults.  When the
`prompt_processor` configuration is absent, the resolved options are the
defaults TRUNCATE, the target model name, `'prompt_processor.summary_cn'`
and `'prompt_processor.combine_cn'`; and an over-budget call dispatches
on the configured type — `'truncate'` invokes exactly the truncation
path on the background with the target model, `'stuff'` exactly the
stuff summarization with the compression model and resolved summary
version, `'map_reduce'` exactly the map-reduce summarization with both
resolved versions, and no other. -/
theorem c8_policy_dispatch_defaults {σ : Type} (env : Env σ) (tm : PromptTemplate)
    (profile : Profile) (m : PlannerInput) (s : σ) (agent_llm prompt_llm : LLM σ)
    (ptk : Nat) (s1 : σ) (content : List Char)
    (hA : env.get_llm profile.llm_model.name = some agent_llm)
    (hB : env.get_llm (resolved_llm profile) = some prompt_llm)
    (hT : agent_llm.get_num_tokens s (tm.format (restrict tm.input_variables m)) =
      (.ok ptk, s1))
    (hover : remaining_tokens agent_llm < (ptk : Int))
    (hbg : m "background" = some content) :
    (profile.llm_model.prompt_processor = none →
      resolved_type profile = "truncate" ∧
      resolved_llm profile = profile.llm_model.name ∧
      resolved_summary_version profile = "prompt_processor.summary_cn" ∧
      resolved_combine_version profile = "prompt_processor.combine_cn") ∧
    (resolved_type profile = "truncate" →
      process_llm_token env tm profile m s =
        applyBg m (truncate_content content (remaining_tokens agent_llm) agent_llm s1)) ∧
    (resolved_type profile = "stuff" →
      process_llm_token env tm profile m s =
        applyBg m (summarize_by_stuff env [content] prompt_llm
          (resolved_summary_version profile) s1)) ∧
    (resolved_type profile = "map_reduce" →
      process_llm_token env tm profile m s =
        applyBg m (summarize_by_map_reduce env [content] prompt_llm agent_llm
          (resolved_summary_version profile) (resolved_combine_version profile) s1)) := by
  constructor
  · intro hp
    refine ⟨?_, ?_, ?_, ?_⟩ <;>
      simp [resolved_type, resolved_llm, resolved_summary_version, resolved_combine_version,
        resolvedPP, hp, pyOrStr, PromptProcessEnum.value]
  · exact process_dispatch env tm profile m s agent_llm prompt_llm ptk s1 content
      hA hB hT hover hbg

/-- Witness for C8: the defaults of the empty configuration, and one
concrete over-budget run per policy value against stub collaborators. -/
theorem c8_policy_dispatch_defaults_witness :
    (resolved_type profile0 = "truncate" ∧
     resolved_llm profile0 = profile0.llm_model.name ∧
     resolved_summary_version profile0 = "prompt_processor.summary_cn" ∧
     resolved_combine_version profile0 = "prompt_processor.combine_cn") ∧
    process_llm_token env1 tmpl0 profile0 m1 () =
      applyBg m1 (truncate_content (List.replicate 8 'b') (remaining_tokens llm1) llm1 ()) ∧
    process_llm_token env1 tmpl0 profileS m1 () =
      applyBg m1 (summarize_by_stuff env1 [List.replicate 8 'b'] llmC
        (resolved_summary_version profileS) ()) ∧
    process_llm_token env1 tmpl0 profileM m1 () =
      applyBg m1 (summarize_by_map_reduce env1 [List.replicate 8 'b'] llmC llm1
        (resolved_summary_version profileM) (resolved_combine_version profileM) ()) := by
  refine ⟨?_, ?_, ?_, ?_⟩
  · exact (c8_policy_dispatch_defaults env1 tmpl0 profile0 m1 () llm1 llm1 1000 ()
      (List.replicate 8 'b') rfl rfl rfl (by decide) rfl).1 rfl
  · exact (c8_policy_dispatch_defaults env1 tmpl0 profile0 m1 () llm1 llm1 1000 ()
      (List.replicate 8 'b') rfl rfl rfl (by decide) rfl).2.1 rfl
  · exact (c8_policy_dispatch_defaults env1 tmpl0 profileS m1 () llm1 llmC 1000 ()
      (List.replicate 8 'b') rfl rfl rfl (by decide) rfl).2.2.1 rfl
  · exact (c8_policy_dispatch_defaults env1 tmpl0 profileM m1 () llm1 llmC 1000 ()
      (List.replicate 8 'b') rfl rfl rfl (by decide) rfl).2.2.2 rfl

/-- Witness for C7: a concrete truncating run leaves the `"query"` key
unchanged, and a concrete in-budget run returns the planner input
unchanged. -/
theorem c7_frame_and_noop_witness :
    (setKey m1 "background" (chunkAt (List.replicate 8 'b') 0 4)) "query" = m1 "query" ∧
    process_llm_token env2 tmpl0 profile0 m1 () = some (.ok m1, ()) := by
  have heq : process_llm_token env1 tmpl0 profile0 m1 () =
      some (.ok (setKey m1 "background" (chunkAt (List.replicate 8 'b') 0 4)), ()) := rfl
  exact ⟨(c7_frame_and_noop env1 tmpl0 profile0 m1 ()).1
      (setKey m1 "background" (chunkAt (List.replicate 8 'b') 0 4)) () heq "query" (by decide),
    (c7_frame_and_noop env2 tmpl0 profile0 m1 ()).2 llm2 llm2 5 () rfl rfl rfl (by decide)⟩

/-- If the loop guard holds at the starting position, a terminating run
begins with the chunk emitted there. -/
theorem splitLoop_guard_cons (t : List Char) (ccs cco : Int) (f : Nat) (pos : Int)
    (l : List (List Char)) (h : splitLoop t ccs cco (f + 1) pos = some l)
    (hg : pos + cco < (t.length : Int)) :
    ∃ r, l = chunkAt t pos ccs :: r := by
  rw [splitLoop_succ, if_pos hg] at h
  obtain ⟨a, -, hfa⟩ := Option.map_eq_some'.mp h
  exact ⟨a, hfa.symm⟩

/-- Successful truncation: when the background estimate is positive, the
derived overlap is below the text length and below the derived chunk
size, `truncate_content` returns the chunk emitted at position 0. -/
theorem truncate_content_ok {σ : Type} (agent_llm : LLM σ) (content : List Char) (R : Int)
    (s1 s2 : σ) (tok : Nat)
    (hbtok : agent_llm.get_num_tokens s1 content = (.ok tok, s2))
    (htok : 0 < tok)
    (hol : Int.tdiv (100 * (content.length : Int)) (tok : Int) < (content.length : Int))
    (hcc : Int.tdiv (100 * (content.length : Int)) (tok : Int) + 1 ≤
           Int.tdiv (R * (content.length : Int)) (tok : Int)) :
    truncate_content content R agent_llm s1 =
      some (.ok (chunkAt content 0 (Int.tdiv (R * (content.length : Int)) (tok : Int))), s2) := by
  have h0 : 0 ≤ Int.tdiv (100 * (content.length : Int)) (tok : Int) :=
    Int.tdiv_nonneg (by positivity) (Int.natCast_nonneg _)
  obtain ⟨spans, hloop, -⟩ := splitLoop_cover content
    (Int.tdiv (R * (content.length : Int)) (tok : Int))
    (Int.tdiv (100 * (content.length : Int)) (tok : Int)) hcc h0
    (content.length + (Int.tdiv (100 * (content.length : Int)) (tok : Int)).natAbs + 1) 0
    le_rfl (by omega)
  obtain ⟨r, hl⟩ := splitLoop_guard_cons content _ _ _ 0 _ hloop (by omega)
  have hst : split_text_on_tokens content tok R 100 =
      some (.ok (spans.map fun p => pySlice content p.1 p.2)) := by
    simp only [split_text_on_tokens]
    rw [if_neg (show ¬(tok = 0) by omega), hloop]
  have hnil : splitAttempt agent_llm R 100 [] s2 = some (.ok [], s2) := rfl
  have hatt : splitAttempt agent_llm R 100 [content] s1 =
      some (.ok ((spans.map fun p => pySlice content p.1 p.2) ++ []), s2) := by
    simp only [splitAttempt]
    rw [hbtok]
    dsimp only
    rw [hst]
    try dsimp only
    try rw [hnil]
  have hsp : split_texts agent_llm [content] R 100 true s1 =
      some (.ok (spans.map fun p => pySlice content p.1 p.2), s2) := by
    unfold split_texts
    rw [hatt]
    dsimp only
    rw [List.append_nil]
  unfold truncate_content
  rw [hsp, hl]

/-- Token bound on the kept chunk: under the measured chars-per-token
ratio `len/tok`, the first chunk of a truncation to `R` tokens
re-estimates to at most `R` tokens (stated multiplied out:
`len(chunk) * tok ≤ R * len`). -/
theorem chunkAt_zero_bound (content : List Char) (R : Int) (tok : Nat)
    (htok : 0 < tok)
    (hol : Int.tdiv (100 * (content.length : Int)) (tok : Int) < (content.length : Int))
    (hcc : Int.tdiv (100 * (content.length : Int)) (tok : Int) + 1 ≤
           Int.tdiv (R * (content.length : Int)) (tok : Int)) :
    ((chunkAt content 0 (Int.tdiv (R * (content.length : Int)) (tok : Int))).length : Int) *
        (tok : Int) ≤ R * (content.length : Int) := by
  have h0 : 0 ≤ Int.tdiv (100 * (content.length : Int)) (tok : Int) :=
    Int.tdiv_nonneg (by positivity) (Int.natCast_nonneg _)
  have hccs1 : 1 ≤ Int.tdiv (R * (content.length : Int)) (tok : Int) := by omega
  have hR : 0 < R := by
    by_contra hRn
    push_neg at hRn
    have hm : R * (content.length : Int) ≤ 0 :=
      mul_nonpos_iff.mpr (Or.inr ⟨hRn, Int.natCast_nonneg _⟩)
    have h2 := tdiv_nonpos_left hm (Int.natCast_nonneg tok)
    omega
  have hlen : 0 < content.length := by
    rcases Nat.eq_zero_or_pos content.length with hz | hp
    · rw [hz] at hol
      simp at hol
    · exact hp
  obtain ⟨rr, hrr⟩ : ∃ rr : Nat, R = (rr : Int) := ⟨R.toNat, (Int.toNat_of_nonneg hR.le).symm⟩
  subst hrr
  have hcast : Int.tdiv ((rr : Int) * (content.length : Int)) (tok : Int) =
      ((rr * content.length / tok : Nat) : Int) := by
    rw [show ((rr : Int) * (content.length : Int)) = ((rr * content.length : Nat) : Int) by
      push_cast; ring]
    exact tdiv_natCast _ _
  rw [hcast]
  unfold chunkAt
  by_cases hend : (content.length : Int) ≤ 0 + ((rr * content.length / tok : Nat) : Int)
  · rw [if_pos hend]
    have hdrop : pySliceFrom content 0 = content := by
      unfold pySliceFrom pyIndex
      rw [if_neg (by omega)]
      simp
    rw [hdrop]
    have hle : content.length ≤ rr * content.length / tok := by exact_mod_cast (by omega :
      (content.length : Int) ≤ ((rr * content.length / tok : Nat) : Int))
    have hnat : content.length * tok ≤ rr * content.length :=
      (Nat.le_div_iff_mul_le htok).mp hle
    exact_mod_cast hnat
  · rw [if_neg hend]
    have hNlt : rr * content.length / tok < content.length := by
      by_contra hge
      push_neg at hge
      refine hend ?_
      have hcast2 : (content.length : Int) ≤ ((rr * content.length / tok : Nat) : Int) := by
        exact_mod_cast hge
      omega
    have hlen2 : (pySlice content 0 ((0 : Int) + ((rr * content.length / tok : Nat) : Int))).length =
        rr * content.length / tok := by
      unfold pySlice pyIndex
      rw [if_neg (by omega), if_neg (by omega)]
      rw [show ((0 : Int) + ((rr * content.length / tok : Nat) : Int)).toNat =
        rr * content.length / tok by omega]
      rw [show ((0 : Int)).toNat = 0 by rfl]
      simp [List.length_take]
      omega
    rw [hlen2]
    have hnat : rr * content.length / tok * tok ≤ rr * content.length :=
      Nat.div_mul_le_self _ _
    exact_mod_cast hnat

/-- C1 (amended): an over-budget run under the TRUNCATE policy rewrites
`planner_input['background']` to the chunk kept at position 0, whose
re-estimated token count under the measured chars-per-token ratio is at
most `remaining_tokens` — *provided* the background's own token estimate
is positive, the derived character overlap is below the background length
(otherwise the chunk list is empty and an `IndexError` escapes, see the
counterexample) and below the derived chunk size (otherwise the chunker
loops forever). -/
theorem c1_truncate_budget {σ : Type} (env : Env σ) (tm : PromptTemplate) (profile : Profile)
    (m : PlannerInput) (s : σ) (agent_llm prompt_llm : LLM σ) (ptk : Nat) (s1 s2 : σ)
    (content : List Char) (tok : Nat)
    (hA : env.get_llm profile.llm_model.name = some agent_llm)
    (hB : env.get_llm (resolved_llm profile) = some prompt_llm)
    (hT : agent_llm.get_num_tokens s (tm.format (restrict tm.input_variables m)) =
      (.ok ptk, s1))
    (hover : remaining_tokens agent_llm < (ptk : Int))
    (htype : resolved_type profile = "truncate")
    (hbg : m "background" = some content)
    (hbtok : agent_llm.get_num_tokens s1 content = (.ok tok, s2))
    (htok : 0 < tok)
    (hol : Int.tdiv (100 * (content.length : Int)) (tok : Int) < (content.length : Int))
    (hcc : Int.tdiv (100 * (content.length : Int)) (tok : Int) + 1 ≤
           Int.tdiv (remaining_tokens agent_llm * (content.length : Int)) (tok : Int)) :
    process_llm_token env tm profile m s =
      some (.ok (setKey m "background" (chunkAt content 0
        (Int.tdiv (remaining_tokens agent_llm * (content.length : Int)) (tok : Int)))), s2) ∧
    ((chunkAt content 0
        (Int.tdiv (remaining_tokens agent_llm * (content.length : Int)) (tok : Int))).length :
      Int) * (tok : Int) ≤ remaining_tokens agent_llm * (content.length : Int) := by
  have hd := (process_dispatch env tm profile m s agent_llm prompt_llm ptk s1 content
    hA hB hT hover hbg).1 htype
  have ht := truncate_content_ok agent_llm content (remaining_tokens agent_llm) s1 s2 tok
    hbtok htok hol hcc
  refine ⟨?_, chunkAt_zero_bound content (remaining_tokens agent_llm) tok htok hol hcc⟩
  rw [hd, ht]
  rfl

/-- C1 counterexample: an over-budget prompt (50 tokens against a
remaining budget of 40) whose background is estimated at 50 tokens makes
the derived character overlap (4) reach the 2-character background, so
the chunk list is empty and the TRUNCATE run raises `IndexError` from
`[0]` instead of rewriting the background at all. -/
theorem c1_counterexample :
    process_llm_token env0 tmpl0 profile0 m0 () = some (.error .indexError, ()) ∧
    remaining_tokens llm0 = 40 ∧
    llm0.get_num_tokens () (tmpl0.format (restrict tmpl0.input_variables m0)) =
      (.ok 50, ()) ∧
    ¬((50 : Int) ≤ remaining_tokens llm0) ∧
    resolved_type profile0 = "truncate" ∧
    ¬ ∃ (m' : PlannerInput) (u : Unit),
        process_llm_token env0 tmpl0 profile0 m0 () = some (.ok m', u) := by
  have h0 : process_llm_token env0 tmpl0 profile0 m0 () = some (.error .indexError, ()) := rfl
  refine ⟨h0, rfl, rfl, by decide, rfl, ?_⟩
  rintro ⟨m', u, h⟩
  rw [h0] at h
  simp at h

/-- Witness for the amended C1: the 8-character background estimated at
400 tokens against a remaining budget of 200 is truncated to its kept
chunk, and the bound holds. -/
theorem c1_truncate_budget_witness :
    process_llm_token env1 tmpl0 profile0 m1 () =
      some (.ok (setKey m1 "background" (chunkAt (List.replicate 8 'b') 0
        (Int.tdiv (remaining_tokens llm1 * (((List.replicate 8 'b').length : Nat) : Int))
          ((400 : Nat) : Int)))), ()) ∧
    ((chunkAt (List.replicate 8 'b') 0
        (Int.tdiv (remaining_tokens llm1 * (((List.replicate 8 'b').length : Nat) : Int))
          ((400 : Nat) : Int))).length : Int) * ((400 : Nat) : Int) ≤
      remaining_tokens llm1 * (((List.replicate 8 'b').length : Nat) : Int) :=
  c1_truncate_budget env1 tmpl0 profile0 m1 () llm1 llm1 1000 () () (List.replicate 8 'b') 400
    rfl rfl rfl (by decide) rfl rfl rfl (by decide) (by decide) (by decide)
